import Mathlib

/-!
Verification of the order-data generator (`data_generation.py`).

The script generates `num_orders` fake retail orders and writes them as a
delimited text file: one header row, then one data row per order.  Each data
row is built from the loop index `i` (the OrderID `f"O{i:04}"`), a uniformly
random customer (`random.choice(customers)`), an amount
(`round(random.uniform(10, 500), 2)`), a status (`random.choice(statuses)`)
and a date (`random_date()`, i.e. `datetime.now()` minus a uniformly random
number of days in `[0, 90]`, formatted `%Y-%m-%d`).

The embedding makes the ambient effects explicit:
* randomness: a `RandSrc` of per-iteration draw streams; `random.choice`,
  `random.uniform` and `random.randint` are modelled so that their results
  range over exactly the values the Python functions can return, whatever
  the draws are;
* the clock: `today`, the current local date as a day number (days since
  1970-01-01, proleptic Gregorian), threaded as a parameter;
* amounts: rationals (the float is an approximation of the same value;
  `round(x, 2)` is modelled as round-half-to-even at 2 decimals);
* file and console output: the pure result is the list of written records
  plus the printed message; `generate_orders_run` additionally models
  open/write failures as exceptions that propagate (`Except`).
-/

/-! ## Decimal rendering of numbers (Python `str` / format specs) -/

/-- big-endian decimal digit characters of a natural number, as Python
renders a nonnegative integer (no sign, no leading zeros, `0` for zero). -/
def natChars (n : Nat) : List Char :=
  if n = 0 then ['0'] else ((Nat.digits 10 n).reverse).map Nat.digitChar

/-- decimal string of a natural number. -/
def natStr (n : Nat) : String :=
  String.mk (natChars n)

/-- left-pad a character list with `'0'` to width `w` (Python zero padding:
values longer than the width are kept whole). -/
def padChars (w : Nat) (l : List Char) : List Char :=
  List.replicate (w - l.length) '0' ++ l

/-- rendering of an integer under Python format spec `0{w}` : zero-padded to
minimum total width `w`, the sign counted in the width (`f"{i:04}"` is
`intPad 4 i`). -/
def intPad (w : Nat) (i : Int) : String :=
  if i < 0 then "-" ++ String.mk (padChars (w - 1) (natChars i.natAbs))
  else String.mk (padChars w (natChars i.toNat))

/-- numeric value of a digit character. -/
def charVal (c : Char) : Nat := c.toNat - 48

/-- numeric value of a big-endian digit string; used to read an OrderID back. -/
def strVal (l : List Char) : Nat := l.foldl (fun a c => 10 * a + charVal c) 0

/-! ## Python random / sequence primitives -/

/-- model of `range(a, b)`: the integers `a, a+1, …, b-1`, empty when `b ≤ a`. -/
def pyRange (a b : Int) : List Int :=
  (List.range (b - a).toNat).map (fun (k : Nat) => a + (k : Int))

/-- model of `random.choice(l)` on a nonempty list: some element of `l`,
selected by the draw `k`. -/
def pyChoice {α : Type} (l : List α) (k : Nat) (h : l ≠ []) : α :=
  l.get ⟨k % l.length, Nat.mod_lt _ (List.length_pos.mpr h)⟩

/-- model of `random.randint(a, b)`: an integer in `[a, b]` selected by the
draw `k`, or the `ValueError` that `randrange` raises when the range is
empty (`b < a`). -/
def pyRandint (a b : Int) (k : Nat) : Except String Int :=
  if b < a then Except.error "ValueError: empty range in randrange"
  else Except.ok (a + (k : Int) % (b - a + 1))

/-- model of `random.uniform(a, b)` for `a ≤ b`: `a + (b - a) * t` with the
draw `t` clamped to the unit interval, so the result ranges over `[a, b]`. -/
def pyUniform (a b : Int) (t : ℚ) : ℚ :=
  (a : ℚ) + ((b : ℚ) - (a : ℚ)) * (min 1 (max 0 t))

/-- round-half-to-even to an integer, as Python `round` ties-to-even. -/
def roundHalfEven (x : ℚ) : Int :=
  let n := ⌊x⌋
  if x - (n : ℚ) < 1 / 2 then n
  else if 1 / 2 < x - (n : ℚ) then n + 1
  else if n % 2 = 0 then n else n + 1

/-- model of `round(x, 2)`: round-half-to-even at two decimal places. -/
def pyRound2 (x : ℚ) : ℚ :=
  (roundHalfEven (100 * x) : ℚ) / 100

/-! ## Calendar (the `datetime` layer used by `random_date`) -/

/-- a calendar date as year, month, day. -/
structure YMD where
  year : Int
  month : Int
  day : Int
deriving Repr, DecidableEq

/-- proleptic Gregorian calendar date of day number `z` (days since
1970-01-01), the civil-from-days conversion used to model
`datetime` day arithmetic followed by `strftime`. -/
def civilFromDays (z : Int) : YMD :=
  let u := z + 719468
  let era := (if 0 ≤ u then u else u - 146096) / 146097
  let doe := u - era * 146097
  let yoe := (doe - doe / 1460 + doe / 36524 - doe / 146096) / 365
  let y := yoe + era * 400
  let doy := doe - (365 * yoe + yoe / 4 - yoe / 100)
  let mp := (5 * doy + 2) / 153
  let d := doy - (153 * mp + 2) / 5 + 1
  let m := mp + (if mp < 10 then 3 else -9)
  ⟨y + (if m ≤ 2 then 1 else 0), m, d⟩

/-- model of `strftime('%Y-%m-%d')` on the date of day number `z`:
zero-padded 4-digit year, 2-digit month, 2-digit day. -/
def formatDays (z : Int) : String :=
  let c := civilFromDays z
  intPad 4 c.year ++ "-" ++ intPad 2 c.month ++ "-" ++ intPad 2 c.day

/-- model of `random_date(start_days_ago)`: draw
`days_ago = random.randint(0, start_days_ago)` and format
`datetime.now() - timedelta(days=days_ago)` as `%Y-%m-%d`.  `today` is the
current local date as a day number; `k` is the random draw.  The
`ValueError` of `randint` on an empty range propagates. -/
def random_date (today : Int) (start_days_ago : Int) (k : Nat) : Except String String :=
  (pyRandint 0 start_days_ago k).map (fun days_ago => formatDays (today - days_ago))

/-! ## CSV serialization (`csv.writer`, default dialect) -/

/-- whether the default csv dialect must quote a field: it contains the
delimiter, the quote character, or a line-terminator character. -/
def needsQuote (s : String) : Bool :=
  s.data.any (fun c => c == ',' || c == '"' || c == '\r' || c == '\n')

/-- double every quote character in a field (default dialect doublequote). -/
def escQuote (s : String) : String :=
  String.mk (s.data.foldr (fun c acc => if c == '"' then '"' :: '"' :: acc else c :: acc) [])

/-- serialize one field under QUOTE_MINIMAL: quoted with internal quotes
doubled when it needs quoting, written as-is otherwise. -/
def csvField (s : String) : String :=
  if needsQuote s then "\"" ++ escQuote s ++ "\"" else s

/-- serialize one record: fields joined by the delimiter. -/
def csvRow (fields : List String) : String :=
  String.intercalate "," (fields.map csvField)

/-! ## The generator (`data_generation.py`) -/

/-- fixed status vocabulary (module-level `statuses` list). -/
def statuses : List String := ["confirmed", "shipped", "pending", "cancelled"]

/-- fixed customer vocabulary (module-level `customers` list). -/
def customers : List String := ["Alice", "Bob", "Charlie", "Diana", "Eve"]

/-- per-iteration random draws consumed by one run of the generator:
the `random.choice` draws for customer and status, the `random.uniform`
draw for the amount, and the `random.randint` draw inside `random_date`,
indexed by the loop counter. -/
structure RandSrc where
  customerDraw : Nat → Nat
  uniformDraw : Nat → ℚ
  statusDraw : Nat → Nat
  dateDraw : Nat → Nat

/-- amount of one order: `round(random.uniform(10, 500), 2)`. -/
def amountOf (t : ℚ) : ℚ :=
  pyRound2 (pyUniform 10 500 t)

/-- decimal rendering of a two-decimal-place rational, as Python `str`
renders the rounded float: integer part, a dot, and the fractional part
with trailing zeros dropped (`.0` kept for whole numbers). -/
def renderAmount (q : ℚ) : String :=
  let n : Int := (100 * q).num
  let sgn := if n < 0 then "-" else ""
  let m := n.natAbs
  let ip := m / 100
  let fr := m % 100
  if fr = 0 then sgn ++ natStr ip ++ ".0"
  else if fr % 10 = 0 then sgn ++ natStr ip ++ "." ++ natStr (fr / 10)
  else sgn ++ natStr ip ++ "." ++ String.mk (padChars 2 (natChars fr))

/-- the list built for iteration `i` of the loop:
`[f"O{i:04}", random.choice(customers), round(random.uniform(10,500),2),
random.choice(statuses), random_date()]`. -/
def rowFor (today : Int) (r : RandSrc) (i : Int) : List String :=
  [ "O" ++ intPad 4 i,
    pyChoice customers (r.customerDraw i.toNat) (by decide),
    renderAmount (amountOf (r.uniformDraw i.toNat)),
    pyChoice statuses (r.statusDraw i.toNat) (by decide),
    ((random_date today 90 (r.dateDraw i.toNat)).toOption).getD "" ]

/-- header record written first: the five literal column names. -/
def headerFields : List String :=
  ["OrderID", "Customer", "Amount", "Status", "OrderDate"]

/-- data records of a run: one per `i in range(1, num_orders + 1)`. -/
def dataRows (today : Int) (r : RandSrc) (num_orders : Int) : List (List String) :=
  (pyRange 1 (num_orders + 1)).map (rowFor today r)

/-- all lines (csv records) written to the file, in order. -/
def fileLines (today : Int) (r : RandSrc) (num_orders : Int) : List String :=
  csvRow headerFields :: (dataRows today r num_orders).map csvRow

/-- the confirmation printed after the file is written:
`f"Generated {num_orders} fake orders to {filename}"`. -/
def confirmMsg (num_orders : Int) (filename : String) : String :=
  "Generated " ++ toString num_orders ++ " fake orders to " ++ filename

/-- model of `generate_orders(filename, num_orders)` under successful I/O:
the lines written to `filename` and the printed confirmation. -/
def generate_orders (today : Int) (r : RandSrc) (filename : String) (num_orders : Int) :
    List String × String :=
  (fileLines today r num_orders, confirmMsg num_orders filename)

/-! ## I/O failure model for `generate_orders` -/

/-- outcome model of the host file system for one run: whether `open`
fails, and whether the `k`-th `writerow` call fails. -/
structure FileSys where
  openFails : Bool
  writeFails : Nat → Bool

/-- write the given records starting at write index `k`: stops with an
exception at the first failing write, otherwise returns the written
records. -/
def writeSeq (fs : FileSys) (k : Nat) : List String → Except String (List String)
  | [] => Except.ok []
  | s :: rest =>
    if fs.writeFails k then Except.error "OSError: write failed"
    else match writeSeq fs (k + 1) rest with
      | Except.error e => Except.error e
      | Except.ok out => Except.ok (s :: out)

/-- model of a whole `generate_orders` call with I/O effects: returns the
messages printed to stdout, and either the written file records or the
uncaught I/O exception.  The confirmation is printed only after the `with`
block completes; an exception while opening or writing skips it and
propagates. -/
def generate_orders_run (today : Int) (r : RandSrc) (fs : FileSys)
    (filename : String) (num_orders : Int) :
    List String × Except String (List String) :=
  if fs.openFails then ([], Except.error "OSError: cannot open file")
  else match writeSeq fs 0 (fileLines today r num_orders) with
    | Except.error e => ([], Except.error e)
    | Except.ok out => ([confirmMsg num_orders filename], Except.ok out)

/-- whether a character is a decimal digit. -/
def isDigitCh (c : Char) : Bool :=
  decide (48 ≤ c.toNat) && decide (c.toNat ≤ 57)

/-- whether a string has the shape `YYYY-MM-DD`: four digits, a dash, two
digits, a dash, two digits. -/
def isYMDShape (s : String) : Bool :=
  match s.data with
  | [y1, y2, y3, y4, s1, m1, m2, s2, d1, d2] =>
    isDigitCh y1 && isDigitCh y2 && isDigitCh y3 && isDigitCh y4 &&
    (s1 == '-') && (s2 == '-') &&
    isDigitCh m1 && isDigitCh m2 && isDigitCh d1 && isDigitCh d2
  | _ => false

/-- fixed all-zero draw source used to instantiate theorems on a concrete run. -/
def constRand : RandSrc :=
  ⟨fun _ => 0, fun _ => 0, fun _ => 0, fun _ => 0⟩

/-- file system in which every open and write succeeds. -/
def fsOk : FileSys :=
  ⟨false, fun _ => false⟩

/-! ## Helper lemmas: decimal digit strings -/

theorem charVal_digitChar {d : Nat} (h : d < 10) : charVal (Nat.digitChar d) = d := by
  interval_cases d <;> decide

theorem foldr_ofDigits (l : List Nat) :
    l.foldr (fun d a => 10 * a + d) 0 = Nat.ofDigits 10 l := by
  induction l with
  | nil => simp [Nat.ofDigits]
  | cons d t ih => simp [Nat.ofDigits, ih]; ring

theorem strVal_natChars (n : Nat) : strVal (natChars n) = n := by
  by_cases h : n = 0
  · subst h; decide
  · unfold natChars
    rw [if_neg h]
    unfold strVal
    rw [List.foldl_map, List.foldl_reverse]
    have he : ((Nat.digits 10 n).foldr (fun c a => 10 * a + charVal (Nat.digitChar c)) 0)
        = ((Nat.digits 10 n).foldr (fun c a => 10 * a + c) 0) := by
      apply List.foldr_ext
      intro c hc a
      rw [charVal_digitChar (Nat.digits_lt_base (by norm_num) hc)]
    rw [he, foldr_ofDigits, Nat.ofDigits_digits]

theorem strVal_replicate_zero (k : Nat) (l : List Char) :
    strVal (List.replicate k '0' ++ l) = strVal l := by
  unfold strVal
  rw [List.foldl_append]
  congr 1
  induction k with
  | zero => rfl
  | succ k ih => simp [List.replicate_succ, List.foldl_cons]; exact ih

theorem strVal_padChars (w n : Nat) : strVal (padChars w (natChars n)) = n := by
  rw [padChars, strVal_replicate_zero, strVal_natChars]

theorem intPad_inj {w : Nat} {i j : Int} (hi : 0 ≤ i) (hj : 0 ≤ j)
    (h : intPad w i = intPad w j) : i = j := by
  unfold intPad at h
  rw [if_neg (by omega), if_neg (by omega)] at h
  have hd : padChars w (natChars i.toNat) = padChars w (natChars j.toNat) :=
    congrArg String.data h
  have hv := strVal_padChars w i.toNat
  rw [hd, strVal_padChars w j.toNat] at hv
  omega

theorem natChars_ne_nil (n : Nat) : natChars n ≠ [] := by
  unfold natChars
  split
  · simp
  · simp [Nat.digits_ne_nil_iff_ne_zero, *]

theorem natChars_length_le {w n : Nat} (hn : n < 10 ^ w) (hw : 0 < w) :
    (natChars n).length ≤ w := by
  unfold natChars
  split
  · simpa using hw
  · rw [List.length_map, List.length_reverse,
      Nat.digits_len 10 n (by norm_num) (by assumption)]
    have := Nat.log_lt_of_lt_pow (by assumption) hn
    omega

theorem natChars_length_ge {w n : Nat} (hn : 10 ^ w ≤ n) :
    w + 1 ≤ (natChars n).length := by
  have hn0 : n ≠ 0 := by
    intro h
    rw [h] at hn
    have : 0 < 10 ^ w := Nat.pos_pow_of_pos w (by norm_num)
    omega
  unfold natChars
  rw [if_neg hn0, List.length_map, List.length_reverse,
    Nat.digits_len 10 n (by norm_num) hn0]
  have := (Nat.pow_le_iff_le_log (by norm_num) hn0).mp hn
  omega

theorem padChars_length {w : Nat} {l : List Char} (h : l.length ≤ w) :
    (padChars w l).length = w := by
  unfold padChars
  rw [List.length_append, List.length_replicate]
  omega

theorem mem_padChars {w : Nat} {l : List Char} {c : Char} (h : c ∈ padChars w l) :
    c = '0' ∨ c ∈ l := by
  unfold padChars at h
  rcases List.mem_append.mp h with h | h
  · exact Or.inl (List.mem_replicate.mp h).2
  · exact Or.inr h

theorem digitChar_toNat {d : Nat} (h : d < 10) :
    48 ≤ (Nat.digitChar d).toNat ∧ (Nat.digitChar d).toNat ≤ 57 := by
  interval_cases d <;> exact ⟨by decide, by decide⟩

theorem mem_natChars_digit {n : Nat} {c : Char} (h : c ∈ natChars n) :
    48 ≤ c.toNat ∧ c.toNat ≤ 57 := by
  unfold natChars at h
  split at h
  · rcases List.mem_singleton.mp h with rfl
    exact ⟨by decide, by decide⟩
  · rcases List.mem_map.mp h with ⟨d, hd, rfl⟩
    exact digitChar_toNat (Nat.digits_lt_base (by norm_num) (List.mem_reverse.mp hd))

/-! ## Helper lemmas: ranges, quoting, calendar, rounding, writes -/

theorem pyRange_length (a b : Int) : (pyRange a b).length = (b - a).toNat := by
  simp [pyRange]

theorem mem_pyRange {a b i : Int} : i ∈ pyRange a b ↔ a ≤ i ∧ i < b := by
  simp only [pyRange, List.mem_map, List.mem_range]
  constructor
  · rintro ⟨k, hk, rfl⟩
    omega
  · intro ⟨h1, h2⟩
    exact ⟨(i - a).toNat, by omega, by omega⟩

theorem pyRange_nodup (a b : Int) : (pyRange a b).Nodup := by
  unfold pyRange
  refine List.Nodup.map ?_ (List.nodup_range _)
  intro x y h
  simp only at h
  omega

theorem needsQuote_eq_false {s : String}
    (h : ∀ c ∈ s.data, c ≠ ',' ∧ c ≠ '"' ∧ c ≠ '\r' ∧ c ≠ '\n') :
    needsQuote s = false := by
  unfold needsQuote
  rw [List.any_eq_false]
  intro c hc
  rcases h c hc with ⟨h1, h2, h3, h4⟩
  simp [h1, h2, h3, h4]

theorem digit_no_quote {c : Char} (h1 : 48 ≤ c.toNat) (h2 : c.toNat ≤ 57) :
    c ≠ ',' ∧ c ≠ '"' ∧ c ≠ '\r' ∧ c ≠ '\n' := by
  refine ⟨?_, ?_, ?_, ?_⟩ <;> (rintro rfl; revert h1 h2; decide)

theorem csvField_of_no_quote {s : String} (h : needsQuote s = false) : csvField s = s := by
  unfold csvField
  rw [h]
  rfl

theorem csvRow_plain {fields : List String}
    (h : ∀ f ∈ fields, needsQuote f = false) :
    csvRow fields = String.intercalate "," fields := by
  unfold csvRow
  congr 1
  have : ∀ f ∈ fields, csvField f = id f := fun f hf => csvField_of_no_quote (h f hf)
  rw [List.map_congr_left this, List.map_id]

theorem civilFromDays_month_day_bounds (z : Int) :
    1 ≤ (civilFromDays z).month ∧ (civilFromDays z).month ≤ 12 ∧
    1 ≤ (civilFromDays z).day ∧ (civilFromDays z).day ≤ 31 := by
  unfold civilFromDays
  dsimp only
  omega

theorem roundHalfEven_ge (x : ℚ) : ⌊x⌋ ≤ roundHalfEven x := by
  unfold roundHalfEven
  dsimp only
  split
  · exact le_refl _
  · split
    · omega
    · split <;> omega

theorem roundHalfEven_le_ceil (x : ℚ) : roundHalfEven x ≤ ⌈x⌉ := by
  have hfc := Int.floor_le_ceil x
  have hfrac : (0 : ℚ) ≤ x - (⌊x⌋ : ℚ) := by
    have := Int.floor_le x
    linarith
  have hstep : (0 : ℚ) < x - (⌊x⌋ : ℚ) → ⌊x⌋ + 1 ≤ ⌈x⌉ := by
    intro hpos
    have h1 : (⌊x⌋ : ℚ) < x := by linarith
    have h2 : x ≤ (⌈x⌉ : ℚ) := Int.le_ceil x
    have h3 : (⌊x⌋ : ℚ) < (⌈x⌉ : ℚ) := lt_of_lt_of_le h1 h2
    exact_mod_cast h3
  unfold roundHalfEven
  dsimp only
  split
  · exact hfc
  · rename_i hlt
    have hpos : (0 : ℚ) < x - (⌊x⌋ : ℚ) := by
      rcases lt_or_eq_of_le hfrac with h | h
      · exact h
      · exact absurd (by linarith : x - (⌊x⌋ : ℚ) < 1 / 2) hlt
    split
    · exact hstep hpos
    · split
      · omega
      · exact hstep hpos

theorem pyUniform_mem {t : ℚ} : 10 ≤ pyUniform 10 500 t ∧ pyUniform 10 500 t ≤ 500 := by
  unfold pyUniform
  have h0 : (0 : ℚ) ≤ min 1 (max 0 t) := le_min (by norm_num) (le_max_left 0 t)
  have h1 : min 1 (max 0 t) ≤ 1 := min_le_left 1 (max 0 t)
  push_cast
  constructor
  · nlinarith
  · nlinarith

theorem pyRound2_mem {x : ℚ} (hlo : 10 ≤ x) (hhi : x ≤ 500) :
    10 ≤ pyRound2 x ∧ pyRound2 x ≤ 500 := by
  unfold pyRound2
  have hfl : (1000 : Int) ≤ ⌊100 * x⌋ := Int.le_floor.mpr (by push_cast; linarith)
  have hcl : ⌈100 * x⌉ ≤ (50000 : Int) := Int.ceil_le.mpr (by push_cast; linarith)
  have hge : (1000 : Int) ≤ roundHalfEven (100 * x) := le_trans hfl (roundHalfEven_ge _)
  have hle : roundHalfEven (100 * x) ≤ (50000 : Int) :=
    le_trans (roundHalfEven_le_ceil _) hcl
  constructor
  · have : (1000 : ℚ) ≤ (roundHalfEven (100 * x) : ℚ) := by exact_mod_cast hge
    linarith
  · have : (roundHalfEven (100 * x) : ℚ) ≤ 50000 := by exact_mod_cast hle
    linarith

theorem pyRound2_cent (x : ℚ) : 100 * pyRound2 x = (roundHalfEven (100 * x) : ℚ) := by
  unfold pyRound2
  field_simp

theorem writeSeq_ok_iff (fs : FileSys) (ls : List String) (s : Nat) :
    (writeSeq fs s ls).isOk = true ↔ ∀ k < ls.length, fs.writeFails (s + k) = false := by
  induction ls generalizing s with
  | nil => simp [writeSeq, Except.isOk, Except.toBool]
  | cons x rest ih =>
    unfold writeSeq
    by_cases hw : fs.writeFails s
    · rw [if_pos hw]
      simp only [Except.isOk, Except.toBool, List.length_cons]
      constructor
      · intro h
        exact absurd h (by simp)
      · intro h
        have := h 0 (by omega)
        rw [Nat.add_zero] at this
        rw [this] at hw
        exact absurd hw (by simp)
    · rw [if_neg hw]
      have hrec := ih (s + 1)
      constructor
      · intro h k hk
        rcases Nat.eq_zero_or_pos k with rfl | hkpos
        · simpa using Bool.of_not_eq_true (fun hcontra => hw (by simp_all))
        · have hok : (writeSeq fs (s + 1) rest).isOk = true := by
            revert h
            cases writeSeq fs (s + 1) rest <;> simp [Except.isOk, Except.toBool]
          have := hrec.mp hok (k - 1) (by simp at hk; omega)
          have harith : s + 1 + (k - 1) = s + k := by omega
          rw [harith] at this
          exact this
      · intro h
        have hok : (writeSeq fs (s + 1) rest).isOk = true := by
          apply hrec.mpr
          intro k hk
          have := h (k + 1) (by simp; omega)
          have harith : s + (k + 1) = s + 1 + k := by omega
          rw [harith] at this
          exact this
        revert hok
        cases writeSeq fs (s + 1) rest <;> simp [Except.isOk, Except.toBool]

theorem writeSeq_ok_eq (fs : FileSys) (ls : List String) (s : Nat) {out : List String}
    (h : writeSeq fs s ls = Except.ok out) : out = ls := by
  induction ls generalizing s out with
  | nil => simpa [writeSeq] using h.symm
  | cons x rest ih =>
    unfold writeSeq at h
    by_cases hw : fs.writeFails s
    · rw [if_pos hw] at h
      exact absurd h (by simp)
    · rw [if_neg hw] at h
      revert h
      cases hrec : writeSeq fs (s + 1) rest with
      | error e => intro h; exact absurd h (by simp)
      | ok out2 =>
        intro h
        have := ih (s + 1) hrec
        simp at h
        rw [← h, this]

/-! ## Helper lemmas: no generated field needs csv quoting -/

theorem needsQuote_append (s t : String) :
    needsQuote (s ++ t) = (needsQuote s || needsQuote t) := by
  simp [needsQuote, String.data_append, List.any_append]

theorem mem_padNat_digit {w n : Nat} {c : Char} (h : c ∈ padChars w (natChars n)) :
    48 ≤ c.toNat ∧ c.toNat ≤ 57 := by
  rcases mem_padChars h with rfl | h
  · exact ⟨by decide, by decide⟩
  · exact mem_natChars_digit h

theorem needsQuote_padNat (w n : Nat) :
    needsQuote (String.mk (padChars w (natChars n))) = false := by
  apply needsQuote_eq_false
  intro c hc
  have := mem_padNat_digit (w := w) (n := n) hc
  exact digit_no_quote this.1 this.2

theorem needsQuote_natStr (n : Nat) : needsQuote (natStr n) = false := by
  apply needsQuote_eq_false
  intro c hc
  have := mem_natChars_digit (n := n) hc
  exact digit_no_quote this.1 this.2

theorem needsQuote_intPad (w : Nat) (i : Int) : needsQuote (intPad w i) = false := by
  unfold intPad
  split
  · rw [needsQuote_append]
    rw [needsQuote_padNat]
    decide
  · exact needsQuote_padNat w i.toNat

theorem needsQuote_formatDays (z : Int) : needsQuote (formatDays z) = false := by
  unfold formatDays
  dsimp only
  rw [needsQuote_append, needsQuote_append, needsQuote_append, needsQuote_append]
  rw [needsQuote_intPad, needsQuote_intPad, needsQuote_intPad]
  decide

theorem needsQuote_renderAmount (q : ℚ) : needsQuote (renderAmount q) = false := by
  unfold renderAmount
  dsimp only
  have hsgn : needsQuote (if (100 * q).num < 0 then "-" else "") = false := by
    split <;> decide
  split
  · rw [needsQuote_append, needsQuote_append, hsgn, needsQuote_natStr]
    decide
  · split
    · rw [needsQuote_append, needsQuote_append, needsQuote_append,
        hsgn, needsQuote_natStr, needsQuote_natStr]
      decide
    · rw [needsQuote_append, needsQuote_append, needsQuote_append,
        hsgn, needsQuote_natStr, needsQuote_padNat]
      decide

theorem random_date_nonneg_ok (today : Int) {m : Int} (hm : 0 ≤ m) (k : Nat) :
    random_date today m k =
      Except.ok (formatDays (today - (k : Int) % (m + 1))) := by
  unfold random_date pyRandint
  rw [if_neg (by omega)]
  show Except.ok (formatDays (today - (0 + (k : Int) % (m - 0 + 1)))) = _
  norm_num

theorem dateField_eq (today : Int) (k : Nat) :
    ((random_date today 90 k).toOption).getD "" =
      formatDays (today - (k : Int) % 91) := by
  rw [random_date_nonneg_ok today (by norm_num) k]
  norm_num
  rfl

theorem needsQuote_dateField (today : Int) (k : Nat) :
    needsQuote (((random_date today 90 k).toOption).getD "") = false := by
  rw [dateField_eq]
  exact needsQuote_formatDays _

theorem row_fields_plain (today : Int) (r : RandSrc) (i : Int) :
    ∀ f ∈ rowFor today r i, needsQuote f = false := by
  intro f hf
  simp only [rowFor, List.mem_cons, List.not_mem_nil, or_false] at hf
  rcases hf with hf | hf | hf | hf | hf
  · rw [hf, needsQuote_append, needsQuote_intPad]
    decide
  · have : f ∈ customers := by
      rw [hf]
      exact List.get_mem _ _ _
    fin_cases this <;> decide
  · rw [hf]
    exact needsQuote_renderAmount _
  · have : f ∈ statuses := by
      rw [hf]
      exact List.get_mem _ _ _
    fin_cases this <;> decide
  · rw [hf]
    exact needsQuote_dateField today _

/-! ## Helper lemmas: shape of the formatted date -/

theorem list_len_four {α : Type} {l : List α} (h : l.length = 4) :
    ∃ a b c d, l = [a, b, c, d] := by
  match l, h with
  | [a, b, c, d], _ => exact ⟨a, b, c, d, rfl⟩

theorem list_len_two {α : Type} {l : List α} (h : l.length = 2) :
    ∃ a b, l = [a, b] := by
  match l, h with
  | [a, b], _ => exact ⟨a, b, rfl⟩

theorem isDigitCh_of_bounds {c : Char} (h1 : 48 ≤ c.toNat) (h2 : c.toNat ≤ 57) :
    isDigitCh c = true := by
  simp [isDigitCh]
  exact ⟨h1, h2⟩

theorem formatDays_shape {z : Int}
    (h1 : 1000 ≤ (civilFromDays z).year) (h2 : (civilFromDays z).year ≤ 9999) :
    isYMDShape (formatDays z) = true := by
  obtain ⟨hm1, hm2, hd1, hd2⟩ := civilFromDays_month_day_bounds z
  have hp4 : (10 : Nat) ^ 4 = 10000 := by norm_num
  have hp2 : (10 : Nat) ^ 2 = 100 := by norm_num
  have hyl : (padChars 4 (natChars (civilFromDays z).year.toNat)).length = 4 :=
    padChars_length (natChars_length_le (by omega) (by norm_num))
  have hml : (padChars 2 (natChars (civilFromDays z).month.toNat)).length = 2 :=
    padChars_length (natChars_length_le (by omega) (by norm_num))
  have hdl : (padChars 2 (natChars (civilFromDays z).day.toNat)).length = 2 :=
    padChars_length (natChars_length_le (by omega) (by norm_num))
  obtain ⟨a1, a2, a3, a4, hla⟩ := list_len_four hyl
  obtain ⟨b1, b2, hlb⟩ := list_len_two hml
  obtain ⟨c1, c2, hlc⟩ := list_len_two hdl
  have hya : intPad 4 (civilFromDays z).year =
      String.mk (padChars 4 (natChars (civilFromDays z).year.toNat)) := by
    unfold intPad
    rw [if_neg (by omega)]
  have hmo : intPad 2 (civilFromDays z).month =
      String.mk (padChars 2 (natChars (civilFromDays z).month.toNat)) := by
    unfold intPad
    rw [if_neg (by omega)]
  have hda : intPad 2 (civilFromDays z).day =
      String.mk (padChars 2 (natChars (civilFromDays z).day.toNat)) := by
    unfold intPad
    rw [if_neg (by omega)]
  have hdata : (formatDays z).data = [a1, a2, a3, a4, '-', b1, b2, '-', c1, c2] := by
    unfold formatDays
    dsimp only
    rw [hya, hmo, hda]
    simp [String.data_append, hla, hlb, hlc]
  have hdig : ∀ x ∈ [a1, a2, a3, a4], isDigitCh x = true := by
    intro x hx
    have hx2 : x ∈ padChars 4 (natChars (civilFromDays z).year.toNat) := by
      rw [hla]
      exact hx
    have := mem_padNat_digit hx2
    exact isDigitCh_of_bounds this.1 this.2
  have hdigm : ∀ x ∈ [b1, b2], isDigitCh x = true := by
    intro x hx
    have hx2 : x ∈ padChars 2 (natChars (civilFromDays z).month.toNat) := by
      rw [hlb]
      exact hx
    have := mem_padNat_digit hx2
    exact isDigitCh_of_bounds this.1 this.2
  have hdigd : ∀ x ∈ [c1, c2], isDigitCh x = true := by
    intro x hx
    have hx2 : x ∈ padChars 2 (natChars (civilFromDays z).day.toNat) := by
      rw [hlc]
      exact hx
    have := mem_padNat_digit hx2
    exact isDigitCh_of_bounds this.1 this.2
  have e1 := hdig a1 (by simp)
  have e2 := hdig a2 (by simp)
  have e3 := hdig a3 (by simp)
  have e4 := hdig a4 (by simp)
  have e5 := hdigm b1 (by simp)
  have e6 := hdigm b2 (by simp)
  have e7 := hdigd c1 (by simp)
  have e8 := hdigd c2 (by simp)
  unfold isYMDShape
  rw [hdata]
  simp [e1, e2, e3, e4, e5, e6, e7, e8]

/-! ## Helper lemmas: OrderID injectivity -/

theorem orderID_inj {i j : Int} (hi : 0 ≤ i) (hj : 0 ≤ j)
    (h : "O" ++ intPad 4 i = "O" ++ intPad 4 j) : i = j := by
  have hd := congrArg String.data h
  simp only [String.data_append] at hd
  have hd2 : (intPad 4 i).data = (intPad 4 j).data := by
    simpa using hd
  exact intPad_inj hi hj (String.ext hd2)

/-! ## Claim theorems -/

/-- C3: for every run of `generate_orders` with `num_orders = N ≥ 0`, the
output file contains exactly `N + 1` records — one header plus `N` data
rows — and when `N = 0` it contains only the header line. -/
theorem file_line_count (today : Int) (r : RandSrc) (filename : String)
    (N : Int) (h : 0 ≤ N) :
    ((generate_orders today r filename N).1).length = N.toNat + 1 ∧
    (N = 0 → (generate_orders today r filename N).1 =
      ["OrderID,Customer,Amount,Status,OrderDate"]) := by
  constructor
  · show (fileLines today r N).length = N.toNat + 1
    unfold fileLines dataRows
    simp [pyRange_length]
  · rintro rfl
    show fileLines today r 0 = _
    unfold fileLines dataRows
    have hr : pyRange 1 (0 + 1) = [] := by decide
    rw [hr]
    have hh : csvRow headerFields = "OrderID,Customer,Amount,Status,OrderDate" := by decide
    simp [hh]

/-- witness for C3 at the concrete run `N = 0`. -/
theorem file_line_count_witness :
    (0 : Int) ≤ 0 ∧
    (((generate_orders 20000 constRand "orders.csv" 0).1).length = (0 : Int).toNat + 1 ∧
      ((0 : Int) = 0 → (generate_orders 20000 constRand "orders.csv" 0).1 =
        ["OrderID,Customer,Amount,Status,OrderDate"])) :=
  ⟨by norm_num, file_line_count 20000 constRand "orders.csv" 0 (by norm_num)⟩

/-- C4: for every run of `generate_orders`, the first record of the output
file is exactly the header `OrderID,Customer,Amount,Status,OrderDate`. -/
theorem first_line_is_header (today : Int) (r : RandSrc) (filename : String)
    (N : Int) :
    ((generate_orders today r filename N).1).head? =
      some "OrderID,Customer,Amount,Status,OrderDate" := by
  show (fileLines today r N).head? = _
  unfold fileLines
  rw [List.head?_cons]
  have hh : csvRow headerFields = "OrderID,Customer,Amount,Status,OrderDate" := by decide
  rw [hh]

/-- C9: for every call of `generate_orders` with a non-positive
`num_orders`, the loop body never runs, the written file is exactly the
header line, the run does not fail under working I/O, and the printed
confirmation quotes the given `num_orders` value. -/
theorem nonpositive_num_orders (today : Int) (r : RandSrc) (filename : String)
    (N : Int) (h : N ≤ 0) :
    generate_orders today r filename N =
      (["OrderID,Customer,Amount,Status,OrderDate"],
        "Generated " ++ toString N ++ " fake orders to " ++ filename) ∧
    generate_orders_run today r fsOk filename N =
      (["Generated " ++ toString N ++ " fake orders to " ++ filename],
        Except.ok ["OrderID,Customer,Amount,Status,OrderDate"]) := by
  have hempty : pyRange 1 (N + 1) = [] := by
    unfold pyRange
    have h0 : (N + 1 - 1).toNat = 0 := by omega
    rw [h0]
    rfl
  have hlines : fileLines today r N = ["OrderID,Customer,Amount,Status,OrderDate"] := by
    unfold fileLines dataRows
    rw [hempty]
    have hh : csvRow headerFields = "OrderID,Customer,Amount,Status,OrderDate" := by decide
    simp [hh]
  constructor
  · unfold generate_orders confirmMsg
    rw [hlines]
  · unfold generate_orders_run
    rw [hlines]
    simp [fsOk, writeSeq, confirmMsg]

/-- witness for C9 at the concrete run `N = -5`. -/
theorem nonpositive_num_orders_witness :
    (-5 : Int) ≤ 0 ∧
    (generate_orders 20000 constRand "orders.csv" (-5) =
      (["OrderID,Customer,Amount,Status,OrderDate"],
        "Generated " ++ toString (-5 : Int) ++ " fake orders to " ++ "orders.csv") ∧
    generate_orders_run 20000 constRand fsOk "orders.csv" (-5) =
      (["Generated " ++ toString (-5 : Int) ++ " fake orders to " ++ "orders.csv"],
        Except.ok ["OrderID,Customer,Amount,Status,OrderDate"])) :=
  ⟨by norm_num, nonpositive_num_orders 20000 constRand "orders.csv" (-5) (by norm_num)⟩

/-- C10: calling `random_date` with a negative bound makes the uniform
integer draw fail on an empty range: the call returns the `ValueError`
instead of a date string. -/
theorem random_date_negative_bound (today start_days_ago : Int) (k : Nat)
    (h : start_days_ago < 0) :
    random_date today start_days_ago k =
      Except.error "ValueError: empty range in randrange" := by
  unfold random_date pyRandint
  rw [if_pos h]
  rfl

/-- witness for C10 at the concrete bound `-1`. -/
theorem random_date_negative_bound_witness :
    (-1 : Int) < 0 ∧
    random_date 20000 (-1) 7 = Except.error "ValueError: empty range in randrange" :=
  ⟨by norm_num, random_date_negative_bound 20000 (-1) 7 (by norm_num)⟩

/-- C6: in every data row, the Customer field is one of the five fixed
customer names and the Status field is one of the four fixed statuses. -/
theorem customer_status_vocab (today : Int) (r : RandSrc) (i : Int) :
    (rowFor today r i).getD 1 "" ∈ customers ∧
    (rowFor today r i).getD 3 "" ∈ statuses := by
  constructor
  · show pyChoice customers (r.customerDraw i.toNat) (by decide) ∈ customers
    unfold pyChoice
    exact List.get_mem _ _ _
  · show pyChoice statuses (r.statusDraw i.toNat) (by decide) ∈ statuses
    unfold pyChoice
    exact List.get_mem _ _ _

/-- C2: in every data row, the Amount is a value with at most two decimal
places (one hundred times it is an integer) lying in `[10, 500]`, and the
Amount field of the row is its decimal rendering. -/
theorem amount_two_decimals_in_range (today : Int) (r : RandSrc) (i : Int) :
    10 ≤ amountOf (r.uniformDraw i.toNat) ∧
    amountOf (r.uniformDraw i.toNat) ≤ 500 ∧
    (∃ m : Int, 100 * amountOf (r.uniformDraw i.toNat) = (m : ℚ)) ∧
    (rowFor today r i).getD 2 "" = renderAmount (amountOf (r.uniformDraw i.toNat)) := by
  have hu := pyUniform_mem (t := r.uniformDraw i.toNat)
  have hb := pyRound2_mem hu.1 hu.2
  exact ⟨hb.1, hb.2,
    ⟨roundHalfEven (100 * pyUniform 10 500 (r.uniformDraw i.toNat)), pyRound2_cent _⟩,
    rfl⟩

/-- C8: every generated row is serialized with its five fields in the fixed
column order joined by the delimiter; no generated field value contains a
delimiter, quote or newline, so none is quoted — while any field that did
contain one would be enclosed in quotes with internal quotes doubled. -/
theorem row_serialization (today : Int) (r : RandSrc) (i : Int) :
    (∀ f ∈ rowFor today r i, needsQuote f = false) ∧
    csvRow (rowFor today r i) = String.intercalate "," (rowFor today r i) ∧
    (rowFor today r i).length = 5 ∧
    (∀ s : String, needsQuote s = true →
      csvField s = "\"" ++ escQuote s ++ "\"") := by
  refine ⟨row_fields_plain today r i, csvRow_plain (row_fields_plain today r i), rfl, ?_⟩
  intro s hs
  unfold csvField
  rw [hs]
  rfl

/-- C1: in every run with `num_orders = N ≥ 1`, the OrderID column of the
data rows is exactly `"O" ++ f"{i:04}"` for `i = 1, …, N` in generation
order, with no duplicates (hence no gaps). -/
theorem orderID_column (today : Int) (r : RandSrc) (N : Int) (_h : 1 ≤ N) :
    (dataRows today r N).map (fun row => row.getD 0 "") =
      (pyRange 1 (N + 1)).map (fun i => "O" ++ intPad 4 i) ∧
    ((dataRows today r N).map (fun row => row.getD 0 "")).Nodup := by
  have hmap : (dataRows today r N).map (fun row => row.getD 0 "") =
      (pyRange 1 (N + 1)).map (fun i => "O" ++ intPad 4 i) := by
    unfold dataRows
    rw [List.map_map]
    rfl
  refine ⟨hmap, ?_⟩
  rw [hmap]
  refine List.Nodup.map_on ?_ (pyRange_nodup 1 (N + 1))
  intro x hx y hy hxy
  have hx1 := (mem_pyRange.mp hx).1
  have hy1 := (mem_pyRange.mp hy).1
  exact orderID_inj (by omega) (by omega) hxy

/-- witness for C1 at the concrete run `N = 1`. -/
theorem orderID_column_witness :
    (1 : Int) ≤ 1 ∧
    ((dataRows 20000 constRand 1).map (fun row => row.getD 0 "") =
      (pyRange 1 (1 + 1)).map (fun i => "O" ++ intPad 4 i) ∧
    ((dataRows 20000 constRand 1).map (fun row => row.getD 0 "")).Nodup) :=
  ⟨by norm_num, orderID_column 20000 constRand 1 (by norm_num)⟩

/-- C5: for every call of `random_date` with a non-negative bound, the
result is the `YYYY-MM-DD` formatting of `today - d` for some `d` in
`[0, start_days_ago]`; the formatted date lies between
`today - start_days_ago` and `today`, and (whenever the year has four
digits) the string has the zero-padded 4-2-2 digit shape. -/
theorem random_date_window (today start_days_ago : Int) (k : Nat)
    (h : 0 ≤ start_days_ago) :
    ∃ d : Int, 0 ≤ d ∧ d ≤ start_days_ago ∧
      random_date today start_days_ago k = Except.ok (formatDays (today - d)) ∧
      today - start_days_ago ≤ today - d ∧ today - d ≤ today ∧
      (1000 ≤ (civilFromDays (today - d)).year →
        (civilFromDays (today - d)).year ≤ 9999 →
        isYMDShape (formatDays (today - d)) = true) := by
  have hmod0 : 0 ≤ (k : Int) % (start_days_ago + 1) :=
    Int.emod_nonneg _ (by omega)
  have hmodlt : (k : Int) % (start_days_ago + 1) < start_days_ago + 1 :=
    Int.emod_lt_of_pos _ (by omega)
  exact ⟨(k : Int) % (start_days_ago + 1), hmod0, by omega,
    random_date_nonneg_ok today h k, by omega, by omega,
    fun h1 h2 => formatDays_shape h1 h2⟩

/-- witness for C5 at the default bound 90 on a concrete day. -/
theorem random_date_window_witness :
    (0 : Int) ≤ 90 ∧
    (∃ d : Int, 0 ≤ d ∧ d ≤ 90 ∧
      random_date 20000 90 37 = Except.ok (formatDays (20000 - d)) ∧
      (20000 : Int) - 90 ≤ 20000 - d ∧ (20000 : Int) - d ≤ 20000 ∧
      (1000 ≤ (civilFromDays (20000 - d)).year →
        (civilFromDays (20000 - d)).year ≤ 9999 →
        isYMDShape (formatDays (20000 - d)) = true)) :=
  ⟨by norm_num, random_date_window 20000 90 37 (by norm_num)⟩

/-- C7: the confirmation message is printed if and only if the open and
every write succeed; the run result is a success under exactly the same
condition, and on failure — where the I/O error propagates — nothing is
printed. -/
theorem confirmation_iff_success (today : Int) (r : RandSrc) (fs : FileSys)
    (filename : String) (N : Int) :
    ((generate_orders_run today r fs filename N).1 = [confirmMsg N filename] ↔
      fs.openFails = false ∧
        ∀ k < (fileLines today r N).length, fs.writeFails k = false) ∧
    ((generate_orders_run today r fs filename N).2.isOk = true ↔
      fs.openFails = false ∧
        ∀ k < (fileLines today r N).length, fs.writeFails k = false) ∧
    ((generate_orders_run today r fs filename N).2.isOk = false →
      (generate_orders_run today r fs filename N).1 = []) := by
  unfold generate_orders_run
  by_cases ho : fs.openFails
  · rw [if_pos ho]
    refine ⟨?_, ?_, ?_⟩
    · exact iff_of_false (by simp) (fun hc => by rw [hc.1] at ho; exact absurd ho (by simp))
    · exact iff_of_false (by simp [Except.isOk, Except.toBool])
        (fun hc => by rw [hc.1] at ho; exact absurd ho (by simp))
    · intro _
      rfl
  · rw [if_neg ho]
    have hiff := writeSeq_ok_iff fs (fileLines today r N) 0
    simp only [Nat.zero_add] at hiff
    cases hws : writeSeq fs 0 (fileLines today r N) with
    | error e =>
      rw [hws] at hiff
      have hnot : ¬ ∀ k < (fileLines today r N).length, fs.writeFails k = false := by
        intro hall
        have := hiff.mpr hall
        exact absurd this (by simp [Except.isOk, Except.toBool])
      refine ⟨?_, ?_, ?_⟩
      · exact iff_of_false (by simp) (fun hc => hnot hc.2)
      · exact iff_of_false (by simp [Except.isOk, Except.toBool]) (fun hc => hnot hc.2)
      · intro _
        rfl
    | ok out =>
      rw [hws] at hiff
      have hall : ∀ k < (fileLines today r N).length, fs.writeFails k = false :=
        hiff.mp (by simp [Except.isOk, Except.toBool])
      refine ⟨?_, ?_, ?_⟩
      · exact iff_of_true rfl ⟨by simpa using ho, hall⟩
      · exact iff_of_true (by simp [Except.isOk, Except.toBool]) ⟨by simpa using ho, hall⟩
      · intro hfalse
        exact absurd hfalse (by simp [Except.isOk, Except.toBool])
